import Mathlib

/-!
Verification of the qagenerator repository's answer-enrichment pipeline.

The definitions below are shallow embeddings of the Python sources:
  src/src/cache_manager.py  (class AICache)
  src/src/ollama_client.py  (class OllamaClient)
  src/src/ai_client.py      (class AIClient)
  src/app.py                (bulk-processing job orchestration)

Modelling conventions:
  - Python strings are modelled as Lean `String` / `List Char`; Python
    slicing and `len` count code points, as Lean list operations do.
  - `str.lower()` is modelled on the ASCII range (the 26-letter table
    `lowerChar`); all questions exercised by the claims are ASCII.
  - md5 cache keys: `AICache._generate_cache_key` returns
    `md5(content).hexdigest()` for `content = normalized:provider:model`.
    We model the digest by the content string itself, i.e. we assume the
    digest is injective (no md5 collisions); two keys are equal exactly
    when their pre-hash contents are equal.
  - Python `dict` is modelled as an association list that preserves
    insertion order and replaces in place on key overwrite, matching
    CPython dict semantics relied on by the iteration in
    `_find_similar_cached_question`.
  - float similarity arithmetic is modelled in exact rationals `ℚ`; at
    every concrete input used below the float and rational comparisons
    against the 0.8 threshold agree (e.g. `4.0/5.0 == 0.8` holds exactly
    in IEEE doubles).
-/

namespace QAGen

/-! ## Python string primitives -/

/-- The ASCII whitespace characters stripped by Python `str.strip()` and
matched by `\s` in the `re` module: space, tab, newline, carriage
return, vertical tab, form feed. -/
def pyWs (c : Char) : Bool :=
  [' ', '\t', '\n', '\r', Char.ofNat 11, Char.ofNat 12].contains c

/-- ASCII model of Python `str.lower()`, character by character. -/
def lowerChar : Char → Char
  | 'A' => 'a'
  | 'B' => 'b'
  | 'C' => 'c'
  | 'D' => 'd'
  | 'E' => 'e'
  | 'F' => 'f'
  | 'G' => 'g'
  | 'H' => 'h'
  | 'I' => 'i'
  | 'J' => 'j'
  | 'K' => 'k'
  | 'L' => 'l'
  | 'M' => 'm'
  | 'N' => 'n'
  | 'O' => 'o'
  | 'P' => 'p'
  | 'Q' => 'q'
  | 'R' => 'r'
  | 'S' => 's'
  | 'T' => 't'
  | 'U' => 'u'
  | 'V' => 'v'
  | 'W' => 'w'
  | 'X' => 'x'
  | 'Y' => 'y'
  | 'Z' => 'z'
  | c => c

/-- Drop leading characters satisfying `p` (Python `lstrip`). -/
def ltrim (p : Char → Bool) (l : List Char) : List Char := l.dropWhile p

/-- Drop trailing characters satisfying `p` (Python `rstrip`). -/
def rtrim (p : Char → Bool) (l : List Char) : List Char := (l.reverse.dropWhile p).reverse

/-- Python `str.strip()` with no arguments. -/
def pyStrip (l : List Char) : List Char := ltrim pyWs (rtrim pyWs l)

/-- Accumulator pass behind `pySplitWs`; words come out in order,
empty runs are discarded, exactly like Python `str.split()`. -/
def splitWsAux : List Char → List Char → List String
  | [], [] => []
  | [], acc => [⟨acc.reverse⟩]
  | c :: rest, acc =>
    if pyWs c then
      match acc with
      | [] => splitWsAux rest []
      | _ :: _ => ⟨acc.reverse⟩ :: splitWsAux rest []
    else splitWsAux rest (c :: acc)

/-- Python `str.split()` with no arguments: split on whitespace runs. -/
def pySplitWs (s : String) : List String := splitWsAux s.data []

/-! ## Cache (src/src/cache_manager.py, class AICache) -/

/-- The trailing punctuation removed by `_normalize_question`
(`normalized.rstrip('?!.')`). -/
def isTrailPunct (c : Char) : Bool := c == '?' || c == '!' || c == '.'

/-- The `variations` table of `AICache._normalize_question`, in Python
dict insertion order (variant, standard). -/
def openerVariations : List (List Char × List Char) :=
  [("what is".data, "what is".data),
   ("what are".data, "what are".data),
   ("how does".data, "how does".data),
   ("how do".data, "how do".data),
   ("explain".data, "explain".data),
   ("describe".data, "explain".data),
   ("tell me about".data, "explain".data)]

/-- The opener-synonym loop of `_normalize_question`: the first variant
that is a prefix of the normalized text is replaced (Python
`str.replace(variant, standard, 1)` replaces the leftmost occurrence,
which under the `startswith` guard is the prefix itself), then the loop
breaks. -/
def applyOpeners (l : List Char) : List Char :=
  match openerVariations.find? (fun v => v.1.isPrefixOf l) with
  | some v => v.2 ++ l.drop v.1.length
  | none => l

/-- The character-list core of `AICache._normalize_question`:
`strip().lower()`, then `.rstrip('?!.')`, then the opener-synonym
replacement. Note: internal whitespace is not touched. -/
def normalizeL (l : List Char) : List Char :=
  applyOpeners (rtrim isTrailPunct ((pyStrip l).map lowerChar))

/-- `AICache._normalize_question`, at `String` level. -/
def normalizeQuestion (q : String) : String :=
  ⟨normalizeL q.data⟩

/-- `AICache._generate_cache_key`: the cache key is the md5 hexdigest of
`normalized:provider:model`; we model the digest by its pre-image (see
the header comment on injectivity). -/
def generateCacheKey (question provider model : String) : String :=
  normalizeQuestion question ++ ":" ++ provider ++ ":" ++ model

/-- `AICache._calculate_similarity`: word-set Jaccard similarity of the
normalized questions, in exact rationals. `set(s.split())` is modelled
by deduplicating the split list; intersection and union cardinalities
follow Python set semantics. -/
def calculateSimilarity (question1 question2 : String) : ℚ :=
  let w1 := (pySplitWs (normalizeQuestion question1)).dedup
  let w2 := (pySplitWs (normalizeQuestion question2)).dedup
  if w1 = [] ∨ w2 = [] then 0
  else Rat.divInt (w1.filter (fun w => w ∈ w2)).length ((w1 ++ w2).dedup.length)

/-- The fixed similarity threshold (0.8) of
`_find_similar_cached_question`, as the exact rational 8/10. -/
def cacheSimilarityThreshold : ℚ := Rat.divInt 8 10

/-- One cached entry (the fields of the Python `cache_entry` dict that
the lookup logic reads; `timestamp`/`tokens_used` are bookkeeping only
and only matter at load time, which is outside these claims). -/
structure CacheEntry (ρ : Type) where
  original_question : String
  provider : String
  model : String
  response : ρ

/-- First-match association-list lookup (Python `dict` access). -/
def alistLookup {α : Type} (k : String) : List (String × α) → Option α
  | [] => none
  | (k1, v) :: rest => if k1 = k then some v else alistLookup k rest

/-- Replace every binding of key `k` by `(k, v)`, keeping positions
(store keys are distinct in practice, as in a Python `dict`). -/
def alistReplace {α : Type} (k : String) (v : α) : List (String × α) → List (String × α)
  | [] => []
  | (k1, v1) :: rest =>
    if k1 = k then (k, v) :: alistReplace k v rest else (k1, v1) :: alistReplace k v rest

/-- Python `dict` assignment `d[k] = v`: replaces in place if the key is
present, else appends, preserving insertion order. -/
def alistInsert {α : Type} (k : String) (v : α) (l : List (String × α)) : List (String × α) :=
  if l.any (fun p => p.1 == k) then alistReplace k v l
  else l ++ [(k, v)]

/-- The two per-provider stores held by `AICache` (`openai_cache`,
`claude_cache`), as insertion-ordered association lists. -/
structure AICache (ρ : Type) where
  openai_cache : List (String × CacheEntry ρ)
  claude_cache : List (String × CacheEntry ρ)

/-- A freshly initialized cache with no persisted entries. -/
def AICache.empty {ρ : Type} : AICache ρ := ⟨[], []⟩

/-- The provider-selection expression
`self.openai_cache if provider == "openai" else self.claude_cache`. -/
def AICache.selected {ρ : Type} (st : AICache ρ) (provider : String) :
    List (String × CacheEntry ρ) :=
  if provider = "openai" then st.openai_cache else st.claude_cache

/-- `AICache._find_similar_cached_question`: scan the store in insertion
order keeping the best strictly-above-threshold similarity; ties keep
the earlier entry (`similarity > best_similarity` is strict). -/
def findSimilarCachedQuestion {ρ : Type} (question : String) (threshold : ℚ)
    (cache : List (String × CacheEntry ρ)) : Option String :=
  (cache.foldl
    (fun acc p =>
      let s := calculateSimilarity question p.2.original_question
      if s > threshold ∧ s > acc.2 then (some p.1, s) else acc)
    ((none : Option String), (0 : ℚ))).1

/-- `AICache.get_cached_response`: exact-key hit first, then the
similar-question fallback; statistics updates are pure bookkeeping and
are not modelled. -/
def getCachedResponse {ρ : Type} (st : AICache ρ) (question provider model : String) :
    Option ρ :=
  let key := generateCacheKey question provider model
  let cache := st.selected provider
  match alistLookup key cache with
  | some e => some e.response
  | none =>
    match findSimilarCachedQuestion question cacheSimilarityThreshold cache with
    | some simKey =>
      match alistLookup simKey cache with
      | some e => some e.response
      | none => none
    | none => none

/-- `AICache.store_response`: build the entry and overwrite by exact key
in the provider-selected store (write-through persistence is I/O and is
not modelled). -/
def storeResponse {ρ : Type} (st : AICache ρ) (question provider model : String)
    (response : ρ) : AICache ρ :=
  let key := generateCacheKey question provider model
  let entry : CacheEntry ρ := ⟨question, provider, model, response⟩
  if provider = "openai" then { st with openai_cache := alistInsert key entry st.openai_cache }
  else { st with claude_cache := alistInsert key entry st.claude_cache }

/-! ### Association-list lemmas -/

theorem alistLookup_replace {α : Type} (k : String) (v : α) :
    ∀ l : List (String × α), l.any (fun p => p.1 == k) = true →
      alistLookup k (alistReplace k v l) = some v := by
  intro l h
  induction l with
  | nil => simp at h
  | cons hd tl ih =>
    obtain ⟨k1, v1⟩ := hd
    by_cases hk : k1 = k
    · simp [alistReplace, alistLookup, hk]
    · rw [List.any_cons] at h
      rcases Bool.or_eq_true_iff.mp h with h | h
      · exact absurd (by simpa using h) hk
      · simp only [alistReplace, if_neg hk, alistLookup, if_neg hk]
        exact ih h

theorem alistLookup_append_fresh {α : Type} (k : String) (v : α) :
    ∀ l : List (String × α), l.any (fun p => p.1 == k) = false →
      alistLookup k (l ++ [(k, v)]) = some v := by
  intro l h
  induction l with
  | nil => simp [alistLookup]
  | cons hd tl ih =>
    obtain ⟨k1, v1⟩ := hd
    rw [List.any_cons] at h
    rcases Bool.or_eq_false_iff.mp h with ⟨ha, hb⟩
    have hk : ¬ k1 = k := by simpa using ha
    simp only [List.cons_append, alistLookup, if_neg hk]
    exact ih hb

theorem alistLookup_insert {α : Type} (k : String) (v : α) (l : List (String × α)) :
    alistLookup k (alistInsert k v l) = some v := by
  unfold alistInsert
  by_cases h : l.any (fun p => p.1 == k) = true
  · simp only [h, if_true]
    exact alistLookup_replace k v l h
  · have h2 : l.any (fun p => p.1 == k) = false := by
      cases hx : l.any (fun p => p.1 == k) with
      | false => rfl
      | true => exact absurd hx h
    simp only [h2, if_false]
    exact alistLookup_append_fresh k v l h2

/-- C2: after `store_response(Q, backend, model, record)`, a lookup with
the exact same `(Q, backend, model)` returns the stored record
unchanged, from any starting cache state. -/
theorem cache_exact_roundtrip {ρ : Type} (st : AICache ρ)
    (question provider model : String) (response : ρ) :
    getCachedResponse (storeResponse st question provider model response)
      question provider model = some response := by
  unfold getCachedResponse storeResponse AICache.selected
  by_cases hp : provider = "openai" <;>
    simp [hp, alistLookup_insert]

/-- C1 (counterexample): the claim quantifies over pairs with Jaccard
similarity at least 0.8, but `_find_similar_cached_question` requires
`similarity > threshold` strictly. At similarity exactly 4/5 the lookup
misses: Q1 has the five words alpha..epsilon, Q2 the first four, the
similarity is exactly 0.8, no exact key matches, and the lookup returns
`none` instead of Q1's record. -/
theorem cache_similarity_at_exactly_threshold_misses :
    calculateSimilarity "alpha beta gamma delta"
        "alpha beta gamma delta epsilon" ≥ cacheSimilarityThreshold
    ∧ generateCacheKey "alpha beta gamma delta" "openai" "m"
        ≠ generateCacheKey "alpha beta gamma delta epsilon" "openai" "m"
    ∧ getCachedResponse
        (storeResponse AICache.empty "alpha beta gamma delta epsilon" "openai" "m" (7 : Nat))
        "alpha beta gamma delta" "openai" "m" = none := by
  refine ⟨by decide, by decide, by decide⟩

/-- C1 (amended): if Q1 was stored first (into an empty cache) under
some backend and model, Q2 has no exact-key entry there, and the
normalized word-set Jaccard similarity of Q2 and Q1 is strictly greater
than 0.8, then the cache lookup for Q2 under the same backend and model
returns Q1's cached record. -/
theorem cache_similarity_fallback {ρ : Type} (q1 q2 provider model : String) (r : ρ)
    (hkey : generateCacheKey q2 provider model ≠ generateCacheKey q1 provider model)
    (hsim : calculateSimilarity q2 q1 > cacheSimilarityThreshold) :
    getCachedResponse (storeResponse AICache.empty q1 provider model r)
      q2 provider model = some r := by
  have hpos : (0 : ℚ) < cacheSimilarityThreshold := by decide
  have hs0 : calculateSimilarity q2 q1 > 0 := lt_trans hpos hsim
  have hne : ¬ generateCacheKey q1 provider model = generateCacheKey q2 provider model :=
    fun h => hkey h.symm
  unfold getCachedResponse storeResponse AICache.selected AICache.empty
  rcases eq_or_ne provider "openai" with hp | hp
  · subst hp
    simp [alistInsert, alistLookup, findSimilarCachedQuestion, hne, hsim, hs0]
  · simp [hp, alistInsert, alistLookup, findSimilarCachedQuestion, hne, hsim, hs0]

/-- C1 (witness): a concrete similar-question hit at similarity 5/6. -/
theorem cache_similarity_fallback_witness :
    getCachedResponse
      (storeResponse AICache.empty "alpha beta gamma delta epsilon" "openai" "m" (7 : Nat))
      "alpha beta gamma delta epsilon zeta" "openai" "m" = some 7 :=
  cache_similarity_fallback "alpha beta gamma delta epsilon"
    "alpha beta gamma delta epsilon zeta" "openai" "m" 7 (by decide) (by decide)

/-! ### Trim lemmas for the normalization proofs -/

theorem dropWhile_append_all {α : Type} (p : α → Bool) (a l : List α)
    (h : ∀ c ∈ a, p c = true) : (a ++ l).dropWhile p = l.dropWhile p := by
  induction a with
  | nil => rfl
  | cons c rest ih =>
    simp only [List.cons_append, List.dropWhile_cons, h c (by simp), if_true]
    exact ih (fun x hx => h x (by simp [hx]))

theorem dropWhile_append_split {α : Type} [DecidableEq α] (p : α → Bool) (a l : List α) :
    (a ++ l).dropWhile p =
      if a.dropWhile p = [] then l.dropWhile p else a.dropWhile p ++ l := by
  induction a with
  | nil => simp
  | cons c rest ih =>
    by_cases hc : p c = true
    · simpa [List.dropWhile_cons, hc] using ih
    · have hc2 : p c = false := by
        cases hx : p c with
        | false => rfl
        | true => exact absurd hx hc


      simp [List.dropWhile_cons, hc2]

theorem dropWhile_eq_self_of_all_false {α : Type} (p : α → Bool) (l : List α)
    (h : ∀ c ∈ l, p c = false) : l.dropWhile p = l := by
  cases l with
  | nil => rfl
  | cons c rest => simp [List.dropWhile_cons, h c (by simp)]

theorem dropWhile_eq_nil_of_all {α : Type} (p : α → Bool) (l : List α)
    (h : ∀ c ∈ l, p c = true) : l.dropWhile p = [] := by
  induction l with
  | nil => rfl
  | cons c rest ih =>
    simp only [List.dropWhile_cons, h c (by simp), if_true]
    exact ih (fun x hx => h x (by simp [hx]))

theorem rtrim_append_all {α : Type} (p : α → Bool) (l b : List α)
    (h : ∀ c ∈ b, p c = true) : (l ++ b).reverse.dropWhile p = l.reverse.dropWhile p := by
  rw [List.reverse_append]
  exact dropWhile_append_all p b.reverse l.reverse (fun c hc => h c (by simpa using hc))

theorem rtrimL_append_all (p : Char → Bool) (l b : List Char)
    (h : ∀ c ∈ b, p c = true) : rtrim p (l ++ b) = rtrim p l := by
  unfold rtrim
  rw [rtrim_append_all p l b h]

theorem rtrimL_append_split (p : Char → Bool) (x y : List Char) :
    rtrim p (x ++ y) = if rtrim p y = [] then rtrim p x else x ++ rtrim p y := by
  unfold rtrim
  rw [List.reverse_append, dropWhile_append_split]
  by_cases hy : y.reverse.dropWhile p = []
  · simp [hy]
  · have hy2 : (y.reverse.dropWhile p).reverse ≠ [] := by
      simpa using hy
    simp [hy, hy2]

theorem rtrimL_eq_nil_of_all (p : Char → Bool) (l : List Char)
    (h : ∀ c ∈ l, p c = true) : rtrim p l = [] := by
  unfold rtrim
  rw [dropWhile_eq_nil_of_all p l.reverse (fun c hc => h c (by simpa using hc))]
  rfl

theorem rtrimL_eq_self_of_all_false (p : Char → Bool) (l : List Char)
    (h : ∀ c ∈ l, p c = false) : rtrim p l = l := by
  unfold rtrim
  rw [dropWhile_eq_self_of_all_false p l.reverse (fun c hc => h c (by simpa using hc))]
  exact l.reverse_reverse

theorem ltrim_cons_false (p : Char → Bool) (c : Char) (l : List Char)
    (h : p c = false) : ltrim p (c :: l) = c :: l := by
  simp [ltrim, List.dropWhile_cons, h]

/-! ### Character-class lemmas for normalization -/

theorem pyWs_lowerChar (c : Char) : pyWs (lowerChar c) = pyWs c := by
  unfold lowerChar
  split <;> rfl

theorem lowerChar_of_trailPunct (c : Char) (h : isTrailPunct c = true) :
    lowerChar c = c := by
  have h2 : (c = '?' ∨ c = '!') ∨ c = '.' := by
    simpa [isTrailPunct] using h
  rcases h2 with (h2 | h2) | h2 <;> subst h2 <;> rfl

theorem pyWs_of_trailPunct (c : Char) (h : isTrailPunct c = true) :
    pyWs c = false := by
  have h2 : (c = '?' ∨ c = '!') ∨ c = '.' := by
    simpa [isTrailPunct] using h
  rcases h2 with (h2 | h2) | h2 <;> subst h2 <;> rfl

theorem map_lowerChar_dropWhile (l : List Char) :
    (l.dropWhile pyWs).map lowerChar = (l.map lowerChar).dropWhile pyWs := by
  induction l with
  | nil => rfl
  | cons c rest ih =>
    cases hc : pyWs c with
    | true => simp [List.dropWhile_cons, hc, pyWs_lowerChar, ih]
    | false => simp [List.dropWhile_cons, hc, pyWs_lowerChar]

theorem map_lowerChar_rtrim (l : List Char) :
    (rtrim pyWs l).map lowerChar = rtrim pyWs (l.map lowerChar) := by
  unfold rtrim
  rw [← List.map_reverse, ← map_lowerChar_dropWhile, List.map_reverse]

theorem map_lowerChar_pyStrip (l : List Char) :
    (pyStrip l).map lowerChar = pyStrip (l.map lowerChar) := by
  unfold pyStrip ltrim
  rw [map_lowerChar_dropWhile, map_lowerChar_rtrim]

/-! ### Normalization invariance lemmas -/

theorem normalizeL_pad_ws (a b l : List Char)
    (ha : ∀ c ∈ a, pyWs c = true) (hb : ∀ c ∈ b, pyWs c = true) :
    normalizeL (a ++ l ++ b) = normalizeL l := by
  unfold normalizeL
  have hstrip : pyStrip (a ++ l ++ b) = pyStrip l := by
    unfold pyStrip
    rw [show a ++ l ++ b = (a ++ l) ++ b from by simp,
      rtrimL_append_all pyWs (a ++ l) b hb, rtrimL_append_split pyWs a l]
    by_cases hq : rtrim pyWs l = []
    · simp [hq, rtrimL_eq_nil_of_all pyWs a ha, ltrim]
    · simp only [hq, if_false]
      exact dropWhile_append_all pyWs a (rtrim pyWs l) ha
  rw [hstrip]

theorem normalizeL_lower_congr (l1 l2 : List Char)
    (h : l1.map lowerChar = l2.map lowerChar) :
    normalizeL l1 = normalizeL l2 := by
  unfold normalizeL
  rw [map_lowerChar_pyStrip, map_lowerChar_pyStrip, h]

theorem map_eq_self_of_fixes {α : Type} (f : α → α) (l : List α)
    (h : ∀ c ∈ l, f c = c) : l.map f = l := by
  induction l with
  | nil => rfl
  | cons c rest ih =>
    simp only [List.map_cons, h c (by simp)]
    rw [ih (fun x hx => h x (by simp [hx]))]

theorem normalizeL_trailing_punct (l s : List Char)
    (hs : ∀ c ∈ s, isTrailPunct c = true) (hq : rtrim pyWs l = l) :
    normalizeL (l ++ s) = normalizeL l := by
  unfold normalizeL
  have hsws : ∀ c ∈ s, pyWs c = false := fun c hc => pyWs_of_trailPunct c (hs c hc)
  have hstrip : pyStrip (l ++ s) = pyStrip l ++ s := by
    unfold pyStrip
    rw [rtrimL_append_split pyWs l s, rtrimL_eq_self_of_all_false pyWs s hsws]
    by_cases hsnil : s = []
    · subst hsnil
      simp [hq]
    · simp only [hsnil, if_false]
      simp only [ltrim, hq]
      rw [dropWhile_append_split pyWs l s]
      by_cases hmt : l.dropWhile pyWs = []
      · have hall : ∀ c ∈ l, pyWs c = true := by
          simpa using List.dropWhile_eq_nil_iff.mp (by simpa [List.dropWhile] using hmt)
        have hnil : l = [] := by
          rw [← hq]
          exact rtrimL_eq_nil_of_all pyWs l hall
        simp [hnil, dropWhile_eq_self_of_all_false pyWs s hsws]
      · simp [hmt]
  rw [hstrip, List.map_append,
    map_eq_self_of_fixes lowerChar s (fun c hc => lowerChar_of_trailPunct c (hs c hc)),
    rtrimL_append_all isTrailPunct ((pyStrip l).map lowerChar) s hs]

theorem applyOpeners_describe_append (t : List Char) :
    applyOpeners ("describe".data ++ t) = "explain".data ++ t := by
  simp [applyOpeners, openerVariations, List.find?, List.isPrefixOf]

theorem applyOpeners_explain_append (t : List Char) :
    applyOpeners ("explain".data ++ t) = "explain".data ++ t := by
  simp [applyOpeners, openerVariations, List.find?, List.isPrefixOf]

theorem ltrim_describe (x : List Char) :
    ltrim pyWs ("describe".data ++ x) = "describe".data ++ x :=
  ltrim_cons_false pyWs 'd' ("escribe".data ++ x) (by decide)

theorem ltrim_explain (x : List Char) :
    ltrim pyWs ("explain".data ++ x) = "explain".data ++ x :=
  ltrim_cons_false pyWs 'e' ("xplain".data ++ x) (by decide)

theorem pyStrip_describe (r : List Char) :
    pyStrip ("describe".data ++ r) =
      if rtrim pyWs r = [] then "describe".data else "describe".data ++ rtrim pyWs r := by
  unfold pyStrip
  rw [rtrimL_append_split pyWs "describe".data r]
  by_cases hr : rtrim pyWs r = []
  · simp only [hr, if_true]
    decide
  · simp only [hr, if_false]
    exact ltrim_describe (rtrim pyWs r)

theorem pyStrip_explain (r : List Char) :
    pyStrip ("explain".data ++ r) =
      if rtrim pyWs r = [] then "explain".data else "explain".data ++ rtrim pyWs r := by
  unfold pyStrip
  rw [rtrimL_append_split pyWs "explain".data r]
  by_cases hr : rtrim pyWs r = []
  · simp only [hr, if_true]
    decide
  · simp only [hr, if_false]
    exact ltrim_explain (rtrim pyWs r)

theorem normalizeL_describe_explain (r : List Char) :
    normalizeL ("describe".data ++ r) = normalizeL ("explain".data ++ r) := by
  unfold normalizeL
  rw [pyStrip_describe r, pyStrip_explain r]
  by_cases hr : rtrim pyWs r = []
  · simp only [hr, if_true]
    decide
  · simp only [hr, if_false]
    rw [List.map_append, List.map_append,
      show "describe".data.map lowerChar = "describe".data from by decide,
      show "explain".data.map lowerChar = "explain".data from by decide,
      rtrimL_append_split isTrailPunct "describe".data ((rtrim pyWs r).map lowerChar),
      rtrimL_append_split isTrailPunct "explain".data ((rtrim pyWs r).map lowerChar)]
    by_cases hp : rtrim isTrailPunct ((rtrim pyWs r).map lowerChar) = []
    · simp only [hp, if_true]
      decide
    · simp only [hp, if_false]
      rw [applyOpeners_describe_append, applyOpeners_explain_append]

theorem generateCacheKey_congr (q1 q2 provider model : String)
    (h : normalizeQuestion q1 = normalizeQuestion q2) :
    generateCacheKey q1 provider model = generateCacheKey q2 provider model := by
  unfold generateCacheKey
  rw [h]

/-- C8 (counterexample): the claim includes invariance under collapsing
internal whitespace runs, but `_normalize_question` never touches
internal whitespace: two questions differing only by a doubled internal
space get different cache keys. -/
theorem cacheKey_internal_whitespace_not_collapsed :
    generateCacheKey "what  is x" "openai" "m"
      ≠ generateCacheKey "what is x" "openai" "m" := by
  decide

/-- C8 (amended): the cache key is invariant under leading/trailing
whitespace padding, per-character ASCII case changes, appending trailing
`?`/`!`/`.` punctuation (to a question without trailing whitespace), and
the canonicalized opener synonym "describe" versus "explain"; it is NOT
invariant under collapsing internal whitespace runs, which normalization
leaves untouched. -/
theorem cacheKey_normalization_invariance :
    (∀ (a b : List Char) (q provider model : String),
        (∀ c ∈ a, pyWs c = true) → (∀ c ∈ b, pyWs c = true) →
        generateCacheKey ⟨a ++ q.data ++ b⟩ provider model
          = generateCacheKey q provider model)
    ∧ (∀ (q1 q2 provider model : String),
        q1.data.map lowerChar = q2.data.map lowerChar →
        generateCacheKey q1 provider model = generateCacheKey q2 provider model)
    ∧ (∀ (q : String) (s : List Char) (provider model : String),
        (∀ c ∈ s, isTrailPunct c = true) → rtrim pyWs q.data = q.data →
        generateCacheKey ⟨q.data ++ s⟩ provider model
          = generateCacheKey q provider model)
    ∧ (∀ (r : List Char) (provider model : String),
        generateCacheKey ⟨"describe".data ++ r⟩ provider model
          = generateCacheKey ⟨"explain".data ++ r⟩ provider model) := by
  refine ⟨?_, ?_, ?_, ?_⟩
  · intro a b q provider model ha hb
    exact generateCacheKey_congr _ _ _ _
      (congrArg String.mk (normalizeL_pad_ws a b q.data ha hb))
  · intro q1 q2 provider model h
    exact generateCacheKey_congr _ _ _ _
      (congrArg String.mk (normalizeL_lower_congr q1.data q2.data h))
  · intro q s provider model hs hq
    exact generateCacheKey_congr _ _ _ _
      (congrArg String.mk (normalizeL_trailing_punct q.data s hs hq))
  · intro r provider model
    exact generateCacheKey_congr _ _ _ _
      (congrArg String.mk (normalizeL_describe_explain r))

/-- C8 (witness): concrete instances of each invariance conjunct. -/
theorem cacheKey_normalization_invariance_witness :
    generateCacheKey "  what is a closure  " "openai" "m"
        = generateCacheKey "what is a closure" "openai" "m"
    ∧ generateCacheKey "What IS a Closure" "openai" "m"
        = generateCacheKey "what is a closure" "openai" "m"
    ∧ generateCacheKey "what is a closure??" "openai" "m"
        = generateCacheKey "what is a closure" "openai" "m"
    ∧ generateCacheKey "describe closures" "openai" "m"
        = generateCacheKey "explain closures" "openai" "m" := by
  refine ⟨?_, ?_, ?_, ?_⟩
  · exact cacheKey_normalization_invariance.1 "  ".data "  ".data
      "what is a closure" "openai" "m" (by decide) (by decide)
  · exact cacheKey_normalization_invariance.2.1 "What IS a Closure"
      "what is a closure" "openai" "m" (by decide)
  · exact cacheKey_normalization_invariance.2.2.1 "what is a closure" "??".data
      "openai" "m" (by decide) (by decide)
  · exact cacheKey_normalization_invariance.2.2.2 " closures".data "openai" "m"

/-! ## JSON values and Python `json.loads`
(src/src/ollama_client.py uses `json.loads` with default strict
settings; we embed the strict JSON grammar it accepts). -/

/-- The two brace characters, written via code points so that string
literals below can stay brace-free. -/
def openBrace : Char := Char.ofNat 123

/-- Closing brace character. -/
def closeBrace : Char := Char.ofNat 125

/-- Parsed JSON values. Numbers are kept as their lexemes: the claims
never compare numeric values across distinct lexemes, and this avoids
modelling float conversion. -/
inductive Json : Type
  | null : Json
  | bool (b : Bool) : Json
  | num (lexeme : String) : Json
  | str (s : String) : Json
  | arr (items : List Json) : Json
  | obj (members : List (String × Json)) : Json

/-- JSON whitespace accepted by Python `json` between tokens. -/
def jsonWs (c : Char) : Bool := [' ', '\t', '\n', '\r'].contains c

/-- ASCII decimal digit. -/
def isDig (c : Char) : Bool := '0' ≤ c && c ≤ '9'

/-- ASCII digit 1..9. -/
def isDig19 (c : Char) : Bool := '1' ≤ c && c ≤ '9'

/-- Integer part of the JSON number grammar: `0` or `[1-9][0-9]*`. -/
def parseIntPart : List Char → Option (List Char × List Char)
  | [] => none
  | c :: rest =>
    if c = '0' then some (['0'], rest)
    else if isDig19 c then some (c :: rest.takeWhile isDig, rest.dropWhile isDig)
    else none

/-- Optional fraction part `.[0-9]+` of the JSON number grammar. -/
def parseFracPart (l : List Char) : List Char × List Char :=
  match l with
  | '.' :: rest =>
    if rest.takeWhile isDig = [] then ([], l)
    else ('.' :: rest.takeWhile isDig, rest.dropWhile isDig)
  | _ => ([], l)

/-- Optional exponent part `[eE][-+]?[0-9]+` of the JSON number grammar. -/
def parseExpPart (l : List Char) : List Char × List Char :=
  match l with
  | c :: s :: rest2 =>
    if (c = 'e' ∨ c = 'E') ∧ (s = '+' ∨ s = '-') then
      if rest2.takeWhile isDig = [] then ([], l)
      else (c :: s :: rest2.takeWhile isDig, rest2.dropWhile isDig)
    else if c = 'e' ∨ c = 'E' then
      if (s :: rest2).takeWhile isDig = [] then ([], l)
      else (c :: (s :: rest2).takeWhile isDig, (s :: rest2).dropWhile isDig)
    else ([], l)
  | [c] =>
    ([], [c])
  | [] => ([], [])

/-- The JSON number token `-?(0|[1-9][0-9]*)(\.[0-9]+)?([eE][-+]?[0-9]+)?`,
returned as (lexeme, rest). -/
def parseNumber (l : List Char) : Option (List Char × List Char) :=
  match l with
  | '-' :: rest =>
    match parseIntPart rest with
    | some (ip, r1) =>
      match parseFracPart r1 with
      | (fp, r2) =>
        match parseExpPart r2 with
        | (ep, r3) => some ('-' :: (ip ++ fp ++ ep), r3)
    | none => none
  | _ =>
    match parseIntPart l with
    | some (ip, r1) =>
      match parseFracPart r1 with
      | (fp, r2) =>
        match parseExpPart r2 with
        | (ep, r3) => some (ip ++ fp ++ ep, r3)
    | none => none

/-- Value of one hex digit, over code points (digits, then the two
letter ranges, offset by 87 and 55 respectively). -/
def hexDigitValue (c : Char) : Option Nat :=
  let n := c.toNat
  if 48 ≤ n ∧ n ≤ 57 then some (n - 48)
  else if 97 ≤ n ∧ n ≤ 102 then some (n - 87)
  else if 65 ≤ n ∧ n ≤ 70 then some (n - 55)
  else none

/-- Four hex digits of a `\u` escape, read off the front of the list. -/
def hexQuad : List Char → Option (Nat × List Char)
  | a :: b :: c :: d :: rest =>
    match hexDigitValue a, hexDigitValue b, hexDigitValue c, hexDigitValue d with
    | some x, some y, some z, some w => some (((x * 16 + y) * 16 + z) * 16 + w, rest)
    | _, _, _, _ => none
  | _ => none

/-- JSON string body after the opening quote, strict mode: raw control
characters below 0x20 are rejected, the eight simple escapes and `\u`
(with surrogate-pair combination) are decoded. A lone surrogate, which
Python would keep in its string, has no valid Lean scalar; `Char.ofNat`
maps it to NUL. Returns (decoded characters, rest after the closing
quote). Fueled recursion; the fuel passed in always exceeds the input
length. -/
def parseJString : Nat → List Char → Option (List Char × List Char)
  | 0, _ => none
  | _ + 1, [] => none
  | f + 1, c :: rest =>
    let simple : Char → List Char → Option (List Char × List Char) := fun ch r =>
      (parseJString f r).map (fun p => (ch :: p.1, p.2))
    if c = '"' then some ([], rest)
    else if c = '\\' then
      match rest with
      | [] => none
      | e :: rest2 =>
        if e = '"' then simple '"' rest2
        else if e = '\\' then simple '\\' rest2
        else if e = '/' then simple '/' rest2
        else if e = 'b' then simple (Char.ofNat 8) rest2
        else if e = 'f' then simple (Char.ofNat 12) rest2
        else if e = 'n' then simple '\n' rest2
        else if e = 'r' then simple '\r' rest2
        else if e = 't' then simple '\t' rest2
        else if e = 'u' then
          match hexQuad rest2 with
          | some (code, rest3) =>
            if 0xd800 ≤ code ∧ code ≤ 0xdbff then
              match rest3 with
              | '\\' :: 'u' :: more =>
                match hexQuad more with
                | some (code2, rest4) =>
                  if 0xdc00 ≤ code2 ∧ code2 ≤ 0xdfff then
                    simple (Char.ofNat (0x10000 + (code - 0xd800) * 0x400 + (code2 - 0xdc00)))
                      rest4
                  else simple (Char.ofNat code) rest3
                | none => simple (Char.ofNat code) rest3
              | _ => simple (Char.ofNat code) rest3
            else simple (Char.ofNat code) rest3
          | none => none
        else none
    else if c.toNat < 0x20 then none
    else simple c rest

mutual

/-- One JSON value at the current position (no leading whitespace),
following Python's scanner: string, object, array, `true`, `false`,
`null`, `NaN`, `Infinity`, `-Infinity`, or a number token. -/
def parseValue : Nat → List Char → Option (Json × List Char)
  | 0, _ => none
  | f + 1, l =>
    match l with
    | [] => none
    | c :: rest =>
      if c = '"' then (parseJString f rest).map (fun p => (Json.str ⟨p.1⟩, p.2))
      else if c = openBrace then
        match rest.dropWhile jsonWs with
        | d :: rest2 =>
          if d = closeBrace then some (Json.obj [], rest2)
          else (parseMembers f (d :: rest2) []).map (fun p => (Json.obj p.1, p.2))
        | [] => none
      else if c = '[' then
        match rest.dropWhile jsonWs with
        | d :: rest2 =>
          if d = ']' then some (Json.arr [], rest2)
          else (parseItems f (d :: rest2) []).map (fun p => (Json.arr p.1, p.2))
        | [] => none
      else if c = 't' then
        if "rue".data.isPrefixOf rest then some (Json.bool true, rest.drop 3) else none
      else if c = 'f' then
        if "alse".data.isPrefixOf rest then some (Json.bool false, rest.drop 4) else none
      else if c = 'n' then
        if "ull".data.isPrefixOf rest then some (Json.null, rest.drop 3) else none
      else if c = 'N' then
        if "aN".data.isPrefixOf rest then some (Json.num "NaN", rest.drop 2) else none
      else if c = 'I' then
        if "nfinity".data.isPrefixOf rest then some (Json.num "Infinity", rest.drop 7)
        else none
      else if c = '-' ∧ "Infinity".data.isPrefixOf rest then
        some (Json.num "-Infinity", rest.drop 8)
      else
        match parseNumber l with
        | some (lex, r) => some (Json.num ⟨lex⟩, r)
        | none => none

/-- Object members from the position of a key's opening quote; duplicate
keys overwrite in place as in a Python `dict`. Returns the members and
the rest after the closing brace. -/
def parseMembers : Nat → List Char → List (String × Json) →
    Option (List (String × Json) × List Char)
  | 0, _, _ => none
  | f + 1, l, acc =>
    match l with
    | '"' :: rest =>
      match parseJString f rest with
      | some (key, rest2) =>
        match rest2.dropWhile jsonWs with
        | ':' :: rest3 =>
          match parseValue f (rest3.dropWhile jsonWs) with
          | some (v, rest4) =>
            match rest4.dropWhile jsonWs with
            | ',' :: rest5 =>
              parseMembers f (rest5.dropWhile jsonWs) (alistInsert ⟨key⟩ v acc)
            | d :: rest5 =>
              if d = closeBrace then some (alistInsert ⟨key⟩ v acc, rest5) else none
            | [] => none
          | none => none
        | _ => none
      | none => none
    | _ => none

/-- Array items from the position of the first item. Returns the items
and the rest after the closing bracket. -/
def parseItems : Nat → List Char → List Json → Option (List Json × List Char)
  | 0, _, _ => none
  | f + 1, l, acc =>
    match parseValue f l with
    | some (v, rest) =>
      match rest.dropWhile jsonWs with
      | ',' :: rest2 => parseItems f (rest2.dropWhile jsonWs) (acc ++ [v])
      | d :: rest2 => if d = ']' then some (acc ++ [v], rest2) else none
      | [] => none
    | none => none

end

/-- Python `json.loads` on a character list: skip leading whitespace,
parse exactly one value, require only whitespace after it. -/
def loadsL (l : List Char) : Option Json :=
  let l1 := l.dropWhile jsonWs
  match parseValue (l1.length + 2) l1 with
  | some (v, rest) => if rest.dropWhile jsonWs = [] then some v else none
  | none => none

/-- Python `json.loads` on a string. -/
def pyJsonLoads (s : String) : Option Json := loadsL s.data

/-! ## `OllamaClient._extract_json` and helpers -/

/-- Index of the first occurrence of `pat` as a contiguous substring
(Python `str.find`), or `none`. -/
def findSub (pat : List Char) : List Char → Option Nat
  | [] => if pat.isPrefixOf [] then some 0 else none
  | c :: rest =>
    if pat.isPrefixOf (c :: rest) then some 0
    else (findSub pat rest).map (· + 1)

/-- The markdown-fence handling of `_extract_json`: if "```json" occurs,
the lazily matched `re.search(r'```json\s*(.*?)\s*```', ..., DOTALL)`
selects the text up to the first following "```" and strips it; else the
same for a plain "```" fence; a fence with no closer leaves the text
unchanged (the `re.search` fails). -/
def fenceFilter (t : List Char) : List Char :=
  match findSub "```json".data t with
  | some i =>
    match findSub "```".data (t.drop (i + 7)) with
    | some j => pyStrip ((t.drop (i + 7)).take j)
    | none => t
  | none =>
    match findSub "```".data t with
    | some i =>
      match findSub "```".data (t.drop (i + 3)) with
      | some j => pyStrip ((t.drop (i + 3)).take j)
      | none => t
    | none => t

/-- Walk behind `_find_matching`: index-tracking depth counter. -/
def findMatchingAux (openc closec : Char) : List Char → Nat → Int → Int
  | [], _, _ => -1
  | c :: rest, i, depth =>
    if c = openc then findMatchingAux openc closec rest (i + 1) (depth + 1)
    else if c = closec then
      if depth - 1 = 0 then (i : Int)
      else findMatchingAux openc closec rest (i + 1) (depth - 1)
    else findMatchingAux openc closec rest (i + 1) depth

/-- `OllamaClient._find_matching`: scan `s[start:]` counting nesting
depth; the index of the structurally matching closer, or the sentinel
`-1` when the closer is missing. -/
def findMatching (s : List Char) (start : Nat) (openc closec : Char) : Int :=
  findMatchingAux openc closec (s.drop start) start 0

/-- The control-character strip `re.sub(r'[\x00-\x1f\x7f-\x9f]', '', ...)`
of the repair path. -/
def stripCtrl (l : List Char) : List Char :=
  l.filter (fun c => !(c.toNat ≤ 0x1f || (0x7f ≤ c.toNat && c.toNat ≤ 0x9f)))

/-- Fueled scan behind `removeTrailingCommas`. -/
def removeTrailingCommasF : Nat → List Char → List Char
  | 0, l => l
  | _ + 1, [] => []
  | f + 1, c :: rest =>
    if c = ',' then
      match rest.dropWhile pyWs with
      | d :: tail =>
        if d = closeBrace ∨ d = ']' then
          rest.takeWhile pyWs ++ d :: removeTrailingCommasF f tail
        else ',' :: removeTrailingCommasF f rest
      | [] => ',' :: removeTrailingCommasF f rest
    else c :: removeTrailingCommasF f rest

/-- The trailing-comma repair `re.sub(r',(\s*[}\]])', r'\1', ...)`:
each non-overlapping match of a comma followed by whitespace and a
closer loses the comma; scanning resumes after the closer. -/
def removeTrailingCommas (l : List Char) : List Char :=
  removeTrailingCommasF (l.length + 1) l

/-- The start-index selection of `_extract_json`:
`starts = [i for i in [text.find("{"), text.find("[")] if i != -1]`,
`min(starts)` when non-empty. -/
def firstOpenerIndex (t : List Char) : Option Nat :=
  match findSub [openBrace] t, findSub ['['] t with
  | none, none => none
  | some i, none => some i
  | none, some j => some j
  | some i, some j => some (min i j)

/-- The find-JSON-in-text tail of `_extract_json`: snippet from the
first opener to its matching closer (or the whole suffix when the
matcher returns -1), direct parse, then the repair pass. -/
def extractFrom (t : List Char) (start : Nat) : Option Json :=
  match t.drop start with
  | [] => none
  | op :: _ =>
    let closec := if op = openBrace then closeBrace else ']'
    let e := findMatching t start op closec
    let snippet := if e = -1 then t.drop start else (t.drop start).take (e.toNat + 1 - start)
    match loadsL snippet with
    | some v => some v
    | none => loadsL (removeTrailingCommas (stripCtrl snippet))

/-- `OllamaClient._extract_json` on a character list. -/
def extractJsonL (t0 : List Char) : Option Json :=
  let t := fenceFilter (pyStrip t0)
  let direct : Option Json :=
    match t with
    | c :: _ => if c = openBrace ∨ c = '[' then loadsL t else none
    | [] => none
  match direct with
  | some v => some v
  | none =>
    match firstOpenerIndex t with
    | none => none
    | some start => extractFrom t start

/-- `OllamaClient._extract_json` (the leading `text.strip()` included). -/
def extractJson (s : String) : Option Json := extractJsonL s.data

/-! ### Extractor lemmas -/

theorem mem_of_mem_dropWhile {α : Type} (p : α → Bool) (l : List α) (x : α)
    (h : x ∈ l.dropWhile p) : x ∈ l := by
  induction l with
  | nil => simp at h
  | cons c rest ih =>
    by_cases hc : p c = true
    · simp only [List.dropWhile_cons, hc, if_true] at h
      exact List.mem_cons_of_mem c (ih h)
    · have hc2 : p c = false := by
        cases hx : p c with
        | false => rfl
        | true => exact absurd hx hc
      simpa [List.dropWhile_cons, hc2] using h

theorem mem_of_mem_pyStrip (l : List Char) (x : Char) (h : x ∈ pyStrip l) : x ∈ l := by
  unfold pyStrip ltrim rtrim at h
  have h1 := mem_of_mem_dropWhile pyWs _ x h
  have h2 : x ∈ l.reverse.dropWhile pyWs := by simpa using h1
  have h3 := mem_of_mem_dropWhile pyWs _ x h2
  simpa using h3

theorem mem_of_mem_fenceFilter (t : List Char) (x : Char) (h : x ∈ fenceFilter t) :
    x ∈ t := by
  unfold fenceFilter at h
  split at h
  · split at h
    · exact List.drop_subset _ _ (List.take_subset _ _ (mem_of_mem_pyStrip _ x h))
    · exact h
  · split at h
    · split at h
      · exact List.drop_subset _ _ (List.take_subset _ _ (mem_of_mem_pyStrip _ x h))
      · exact h
    · exact h

theorem findSub_singleton_none (x : Char) (l : List Char) (h : x ∉ l) :
    findSub [x] l = none := by
  induction l with
  | nil => simp [findSub, List.isPrefixOf]
  | cons c rest ih =>
    have hx : ¬ x = c := fun he => h (he ▸ List.mem_cons_self c rest)
    have hpre : [x].isPrefixOf (c :: rest) = false := by
      simp [List.isPrefixOf, hx]
    simp only [findSub, hpre]
    rw [ih (fun hm => h (List.mem_cons_of_mem c hm))]
    rfl

theorem extractJsonL_none_of_no_openers (t0 : List Char)
    (hb : openBrace ∉ t0) (hk : '[' ∉ t0) : extractJsonL t0 = none := by
  have hbt : openBrace ∉ fenceFilter (pyStrip t0) := fun h =>
    hb (mem_of_mem_pyStrip t0 _ (mem_of_mem_fenceFilter (pyStrip t0) _ h))
  have hkt : '[' ∉ fenceFilter (pyStrip t0) := fun h =>
    hk (mem_of_mem_pyStrip t0 _ (mem_of_mem_fenceFilter (pyStrip t0) _ h))
  unfold extractJsonL
  generalize fenceFilter (pyStrip t0) = t at hbt hkt
  dsimp only
  have hfirst : firstOpenerIndex t = none := by
    unfold firstOpenerIndex
    rw [findSub_singleton_none openBrace t hbt, findSub_singleton_none '[' t hkt]
  cases t with
  | nil => simp [hfirst]
  | cons c cs =>
    have hc1 : ¬ c = openBrace := fun h => hbt (h ▸ List.mem_cons_self c cs)
    have hc2 : ¬ c = '[' := fun h => hkt (h ▸ List.mem_cons_self c cs)
    have hcond : ¬ (c = openBrace ∨ c = '[') := by
      rintro (h | h)
      · exact hc1 h
      · exact hc2 h
    simp only [if_neg hcond, hfirst]

/-- C5: the JSON extractor recovers a valid object from (a) text in
```json fences, (b) raw unwrapped object text, and (c) text with a
trailing comma before the closing brace; and for every input with no
opening brace and no opening bracket it returns `none`. -/
theorem json_extractor_cases :
    extractJson "```json\n\x7b\"key\": \"value\"\x7d\n```"
        = some (Json.obj [("key", Json.str "value")])
    ∧ extractJson "\x7b\"key\": \"value\"\x7d"
        = some (Json.obj [("key", Json.str "value")])
    ∧ extractJson "\x7b\"a\": 1,\x7d" = some (Json.obj [("a", Json.num "1")])
    ∧ (∀ s : String, openBrace ∉ s.data → '[' ∉ s.data → extractJson s = none) := by
  refine ⟨rfl, rfl, rfl, ?_⟩
  intro s hb hk
  exact extractJsonL_none_of_no_openers s.data hb hk

/-- C5 (witness): the no-JSON branch at a concrete brace-free input. -/
theorem json_extractor_cases_witness : extractJson "no json here" = none :=
  json_extractor_cases.2.2.2 "no json here" (by decide) (by decide)

/-- C10: the extractor is total by construction (it is a Lean function
into `Option`); on an input whose first opener has no structurally
matching closer, `_find_matching` returns the sentinel -1 and the
extractor parses the whole remaining suffix, returning the repair-pass
result (and so `none` when both parses fail) instead of raising. -/
theorem json_extractor_unmatched_suffix (s : String) (start : Nat) (op : Char)
    (tail : List Char)
    (hstrip : pyStrip s.data = s.data)
    (hfence : fenceFilter s.data = s.data)
    (hdirect : loadsL s.data = none)
    (hstart : firstOpenerIndex s.data = some start)
    (hop : s.data.drop start = op :: tail)
    (hmatch : findMatching s.data start op (if op = openBrace then closeBrace else ']') = -1) :
    extractJson s =
      (match loadsL (s.data.drop start) with
       | some v => some v
       | none => loadsL (removeTrailingCommas (stripCtrl (s.data.drop start)))) := by
  unfold extractJson extractJsonL
  rw [hstrip, hfence]
  dsimp only
  have hdir : (match s.data with
      | c :: _ => if c = openBrace ∨ c = '[' then loadsL s.data else none
      | [] => none) = (none : Option Json) := by
    cases hsd : s.data with
    | nil => rfl
    | cons c cs =>
      dsimp only
      split
      · rw [← hsd, hdirect]
      · rfl
  rw [hdir, hstart]
  unfold extractFrom
  rw [hop]
  dsimp only
  rw [hop]
  simp only [hmatch]
  simp only [if_true]

/-- C10 (witness): a concrete unclosed-brace input flows through the
sentinel path and yields `none`. -/
theorem json_extractor_unmatched_suffix_witness :
    extractJson "x \x7b\"a\": 1" = none := by
  have h := json_extractor_unmatched_suffix "x \x7b\"a\": 1" 2 openBrace "\"a\": 1".data
    rfl rfl rfl rfl rfl rfl
  exact h.trans rfl

/-! ## Assembler (src/src/ollama_client.py: _slugify, _make_id,
_assemble_final_json) -/

/-- Python `str.lower()` at `String` level (ASCII model). -/
def pyLower (s : String) : String := ⟨s.data.map lowerChar⟩

/-- Characters kept by the slug substitution `[^a-z0-9]+` (applied after
lowercasing). -/
def isSlugKeep (c : Char) : Bool := ('a' ≤ c && c ≤ 'z') || isDig c

/-- Pointwise step of `re.sub(r'[^a-z0-9]+', '-', text)`: kept
characters stay, all others become dashes; run collapsing follows. -/
def dashify (c : Char) : Char := if isSlugKeep c then c else '-'

/-- Fueled collapse of dash runs to single dashes (`re.sub(r'-+', '-')`). -/
def collapseDashesF : Nat → List Char → List Char
  | 0, l => l
  | _ + 1, [] => []
  | _ + 1, [c] => [c]
  | f + 1, c :: d :: rest =>
    if c = '-' ∧ d = '-' then collapseDashesF f ('-' :: rest)
    else c :: collapseDashesF f (d :: rest)

/-- Collapse runs of dashes to single dashes. -/
def collapseDashes (l : List Char) : List Char := collapseDashesF (l.length + 1) l

/-- Dash character test for `strip('-')`. -/
def isDash (c : Char) : Bool := c == '-'

/-- `OllamaClient._slugify`: lowercase; replace maximal non-alphanumeric
runs by single dashes (a per-character substitution followed by dash-run
collapsing computes the same result, since kept characters are never
dashes); `strip('-')`; then the final `re.sub(r'-+', '-')`, a no-op kept
for fidelity. -/
def slugify (l : List Char) : List Char :=
  let subbed := collapseDashes ((l.map lowerChar).map dashify)
  collapseDashes (ltrim isDash (rtrim isDash subbed))

/-- `OllamaClient._make_id`: `question-` plus the first 30 slug
characters plus a dash plus the short content hash
`md5(question).hexdigest()[:6]`; the digest is the abstract parameter
`h` (any function of the full question text). -/
def makeId (h : String → String) (question : String) : String :=
  "question-" ++ ⟨(slugify question.data).take 30⟩ ++ "-" ++ h question

/-- The thirteen per-task results fed into `_assemble_final_json`
(`task_results` keys, in source order). -/
structure TaskResults where
  primaryQuestion : String
  alternativeQuestions : List String
  answerDescriptions : List String
  summary : String
  detailed : String
  whenToUse : String
  realWorldContext : String
  category : String
  subcategory : String
  difficulty : String
  tags : List String
  conceptTriggers : List String
  naturalFollowups : List String
  relatedQuestions : List String
  commonMistakes : List (String × String)

/-- The body of the assembled record (the object stored under the
generated id). -/
structure RecordBody where
  primaryQuestion : String
  alternativeQuestions : List String
  answerDescriptions : List String
  summary : String
  detailed : String
  whenToUse : String
  realWorldContext : String
  category : String
  subcategory : String
  difficulty : String
  tags : List String
  conceptTriggers : List String
  naturalFollowups : List String
  relatedQuestions : List String
  commonMistakes : List (String × String)
  confidence : String
  lastUpdated : String
  verified : Bool

/-- `OllamaClient._assemble_final_json`: a single-key mapping from the
generated record id to the assembled body; the four answer sub-fields
are grouped under `answer` in the Python dict and are carried flat here;
`confidence` is fixed to "high", `lastUpdated` is `str(date.today())`
(the `today` parameter), `verified` is fixed to `false`. -/
def assembleFinalJson (h : String → String) (question : String) (tr : TaskResults)
    (today : String) : String × RecordBody :=
  (makeId h question,
   { primaryQuestion := tr.primaryQuestion
     alternativeQuestions := tr.alternativeQuestions
     answerDescriptions := tr.answerDescriptions
     summary := tr.summary
     detailed := tr.detailed
     whenToUse := tr.whenToUse
     realWorldContext := tr.realWorldContext
     category := tr.category
     subcategory := tr.subcategory
     difficulty := tr.difficulty
     tags := tr.tags
     conceptTriggers := tr.conceptTriggers
     naturalFollowups := tr.naturalFollowups
     relatedQuestions := tr.relatedQuestions
     commonMistakes := tr.commonMistakes
     confidence := "high"
     lastUpdated := today
     verified := false })

/-- C6: record assembly is deterministic. For every md5 model `h`: the
record id depends only on the question text (not on the field results or
the date); two assemblies with the same inputs but different dates agree
everywhere except `lastUpdated`; and the id is the `question-` slug of
the first 30 slug characters plus the short hash of the full question. -/
theorem record_assembly_deterministic :
    (∀ (h : String → String) (q : String) (tr tr2 : TaskResults) (d d2 : String),
        (assembleFinalJson h q tr d).1 = (assembleFinalJson h q tr2 d2).1)
    ∧ (∀ (h : String → String) (q : String) (tr : TaskResults) (d d2 : String),
        assembleFinalJson h q tr d
          = ((assembleFinalJson h q tr d2).1,
             { (assembleFinalJson h q tr d2).2 with lastUpdated := d }))
    ∧ (∀ (h : String → String) (q : String) (tr : TaskResults) (d : String),
        (assembleFinalJson h q tr d).1
          = "question-" ++ ⟨(slugify q.data).take 30⟩ ++ "-" ++ h q) :=
  ⟨fun _ _ _ _ _ _ => rfl, fun _ _ _ _ _ => rfl, fun _ _ _ _ => rfl⟩

/-! ## List field calls (src/src/ollama_client.py,
_ollama_call_for_list and its default generators) -/

/-- Split on newline characters, keeping empty segments, like Python
`str.split('\n')`. -/
def splitNlAux : List Char → List Char → List (List Char)
  | [], acc => [acc.reverse]
  | c :: rest, acc =>
    if c = '\n' then acc.reverse :: splitNlAux rest [] else splitNlAux rest (c :: acc)

/-- Python `text.split('\n')`. -/
def splitNl (l : List Char) : List (List Char) := splitNlAux l []

/-- `re.sub(r'^\d+\.\s*', '', line)`: a leading digit run followed by a
dot and optional whitespace is removed; otherwise the line is kept. -/
def stripNumDot (l : List Char) : List Char :=
  if l.takeWhile isDig = [] then l
  else
    match l.dropWhile isDig with
    | '.' :: r2 => r2.dropWhile pyWs
    | _ => l

/-- `re.sub(r'^X\s*', '', line)` for a single marker character `X`
(the `-` and `*` bullet markers). -/
def stripLead (marker : Char) (l : List Char) : List Char :=
  match l with
  | d :: rest => if d = marker then rest.dropWhile pyWs else l
  | [] => l

/-- Python `line.strip('"\'')`: wrapping double and single quotes
removed from both ends. -/
def stripQuotes (l : List Char) : List Char :=
  ltrim (fun c => c == '"' || c == '\'') (rtrim (fun c => c == '"' || c == '\'') l)

/-- The sequential per-line cleanup of `_ollama_call_for_list`. -/
def cleanListLine (l : List Char) : List Char :=
  stripQuotes (stripLead '*' (stripLead '-' (stripNumDot l)))

/-- `lines = [line.strip() for line in text.split('\n') if line.strip()]`
followed by the marker/quote cleanup and the `len(line) > 3` filter:
the usable items recovered from the response text. -/
def cleanedItems (text : List Char) : List String :=
  let lines := ((splitNl text).map pyStrip).filter (fun l => !l.isEmpty)
  (((lines.map cleanListLine).filter (fun l => !l.isEmpty && decide (3 < l.length))).map
    (fun l => (⟨l⟩ : String)))

/-- `prompt.split('"')[1] if '"' in prompt else fallback`. -/
def promptQuoted (prompt fallback : String) : String :=
  match prompt.data.dropWhile (fun c => !(c == '"')) with
  | _ :: tail => ⟨tail.takeWhile (fun c => !(c == '"'))⟩
  | [] => fallback

/-- `OllamaClient._generate_default_questions`: ten fixed phrasings over
the lowercased base question, truncated to `count`. -/
def generateDefaultQuestions (base : String) (count : Nat) : List String :=
  ([ "Can you explain " ++ pyLower base,
     "What do you mean by " ++ pyLower base,
     "Tell me about " ++ pyLower base,
     "How would you describe " ++ pyLower base,
     "What's the answer to " ++ pyLower base,
     "Could you clarify " ++ pyLower base,
     "Please elaborate on " ++ pyLower base,
     "What are the details of " ++ pyLower base,
     "Can you provide information about " ++ pyLower base,
     "What should I know about " ++ pyLower base ]).take count

/-- `\w` word characters of `re.findall(r'\w+', ...)` (ASCII model). -/
def isWordChar (c : Char) : Bool :=
  isDig c || ('a' ≤ c && c ≤ 'z') || ('A' ≤ c && c ≤ 'Z') || c = '_'

/-- Fueled maximal-run scan behind `re.findall(r'\w+', text)`. -/
def wordRunsF : Nat → List Char → List (List Char)
  | 0, _ => []
  | _ + 1, [] => []
  | f + 1, c :: rest =>
    if isWordChar c then (c :: rest.takeWhile isWordChar) :: wordRunsF f (rest.dropWhile isWordChar)
    else wordRunsF f rest

/-- `re.findall(r'\w+', text)`. -/
def wordRuns (l : List Char) : List (List Char) := wordRunsF (l.length + 1) l

/-- The stop words excluded from tag candidates. -/
def tagStopWords : List String :=
  ["what", "how", "when", "where", "why", "which", "the", "and", "or"]

/-- The `while len(tags) < count: tags.append(f'tag-...')` padding loop. -/
def padTagsF : Nat → List String → Nat → List String
  | 0, tags, _ => tags
  | f + 1, tags, count =>
    if tags.length < count then
      padTagsF f (tags ++ ["tag-" ++ toString (tags.length + 1)]) count
    else tags

/-- `OllamaClient._generate_default_tags`: words of the lowercased
question longer than 3 characters and not stop words, plus four generic
tags, padded to `count` and truncated to `count`. -/
def generateDefaultTags (question : String) (count : Nat) : List String :=
  let words := (wordRuns (question.data.map lowerChar)).map (fun l => (⟨l⟩ : String))
  let tags := words.filter (fun w => decide (3 < w.data.length) && !(tagStopWords.contains w))
  let tags := tags ++ ["web-development", "programming", "technical", "interview"]
  (padTagsF count tags count).take count

/-- Case-lowered substring test (`"question" in field_name.lower()`). -/
def fieldNameHas (w : String) (field : String) : Bool :=
  (findSub w.data (field.data.map lowerChar)).isSome

/-- `OllamaClient._ollama_call_for_list` after the HTTP layer: `resp` is
the response text of a successful request (`none` models a failed
request or raised exception). At least one usable item: return the
cleaned items truncated to `expected_count` (never padded). Zero usable
items (or no response): minimal defaults for question/tag fields, the
empty list otherwise. -/
def ollamaCallForList (resp : Option String) (prompt : String) (expected_count : Nat)
    (field_name : String) : List String :=
  let fallback : List String :=
    if fieldNameHas "question" field_name then
      generateDefaultQuestions (promptQuoted prompt "topic") (min 3 expected_count)
    else if fieldNameHas "tag" field_name then
      generateDefaultTags (promptQuoted prompt "topic") (min 3 expected_count)
    else []
  match resp with
  | none => fallback
  | some text =>
    let cleaned := cleanedItems (pyStrip text.data)
    if 0 < cleaned.length then
      if expected_count ≤ cleaned.length then cleaned.take expected_count else cleaned
    else fallback

/-- C7 (counterexample): with zero usable items in the response and a
question-type field, the call does synthesize placeholder items — the
result is three default phrasings, not the (empty) cleaned list. -/
theorem list_call_zero_usable_synthesizes_defaults :
    cleanedItems (pyStrip "ok".data) = []
    ∧ ollamaCallForList (some "ok")
        "Generate 10 alternative ways to ask this question: \"What is X\""
        10 "alternative questions"
        = ["Can you explain what is x",
           "What do you mean by what is x",
           "Tell me about what is x"]
    ∧ ollamaCallForList (some "ok")
        "Generate 10 alternative ways to ask this question: \"What is X\""
        10 "alternative questions"
        ≠ cleanedItems (pyStrip "ok".data) := by
  refine ⟨rfl, rfl, by decide⟩

/-- C7 (amended): whenever the response yields at least one usable item
but fewer than the requested target count, the call returns exactly that
shorter cleaned list — no filler is synthesized; defaults only appear in
the zero-usable-items case. -/
theorem list_call_accepts_shorter_list (text prompt : String) (expected_count : Nat)
    (field_name : String)
    (hne : cleanedItems (pyStrip text.data) ≠ [])
    (hlt : (cleanedItems (pyStrip text.data)).length < expected_count) :
    ollamaCallForList (some text) prompt expected_count field_name
      = cleanedItems (pyStrip text.data) := by
  unfold ollamaCallForList
  have h0 : 0 < (cleanedItems (pyStrip text.data)).length := List.length_pos.mpr hne
  have h1 : ¬ expected_count ≤ (cleanedItems (pyStrip text.data)).length := not_le.mpr hlt
  simp only [if_pos h0, if_neg h1]

/-- C7 (witness): two usable lines against a target of five. -/
theorem list_call_accepts_shorter_list_witness :
    ollamaCallForList (some "first item line\nsecond item line") "p" 5 "tags"
      = ["first item line", "second item line"] := by
  have h := list_call_accepts_shorter_list "first item line\nsecond item line" "p" 5 "tags"
    (by decide) (by decide)
  exact h.trans rfl

/-! ## Job orchestration (src/app.py: ScrapingJob,
run_bulk_processing_job, process_bulk_questions, start_scraping).
Progress percentages (floats for display), socket events, timing sleeps
and the post-completion file save are presentation/I/O side channels and
are not part of the job-state model. -/

/-- One scraped or bulk-entered item (`qa_item` fields read by the bulk
processing loop). -/
structure QAItem where
  id : String
  question : String

/-- The `ScrapingJob` state read and written by the bulk-processing
worker, generic over the per-id record payload `ρ`. -/
structure BulkJob (ρ : Type) where
  job_id : String
  topic : String
  status : String
  total_questions : Nat
  processed_questions : Nat
  scraped_data : List QAItem
  processed_data : List (String × ρ)
  errors : List String

/-- `ScrapingJob.__init__`: status `starting`, empty collections. -/
def mkScrapingJob {ρ : Type} (job_id topic : String) : BulkJob ρ :=
  { job_id := job_id
    topic := topic
    status := "starting"
    total_questions := 0
    processed_questions := 0
    scraped_data := []
    processed_data := []
    errors := [] }

/-- `job.processed_data.update(processed_item)`: merge one returned
record (itself an id-to-body mapping) into the accumulated output. -/
def mergeRecord {ρ : Type} (acc rec : List (String × ρ)) : List (String × ρ) :=
  rec.foldl (fun a kv => alistInsert kv.1 kv.2 a) acc

/-- One iteration of the bulk loop: `format_question_to_json` returning
a record merges it and bumps the success counter; `None` (which also
covers a raised exception, caught and logged in the inner `try`)
appends one error entry. -/
def processBulkItem {ρ : Type} (ai : QAItem → Option (List (String × ρ)))
    (job : BulkJob ρ) (item : QAItem) : BulkJob ρ :=
  match ai item with
  | some rec =>
    { job with
      processed_data := mergeRecord job.processed_data rec
      processed_questions := job.processed_questions + 1 }
  | none =>
    { job with
      errors := job.errors ++ ["Failed to process: " ++ (⟨item.question.data.take 50⟩ : String) ++ "..."] }

/-- `run_bulk_processing_job`: set `checking_ai`; a failed connectivity
check sets `error` with a single aggregated message and returns without
touching any item; otherwise process every item of `scraped_data` in
order and finish in `completed` regardless of per-item failures.
`connOk` is the result of `current_ai_client.test_connection()` and
`provider` its `provider` attribute. -/
def runBulkProcessingJob {ρ : Type} (connOk : Bool) (provider : String)
    (ai : QAItem → Option (List (String × ρ))) (job : BulkJob ρ) : BulkJob ρ :=
  let job := { job with status := "checking_ai" }
  if !connOk then
    { job with status := "error", errors := job.errors ++ ["AI connection failed for " ++ provider] }
  else
    let job := { job with status := "processing" }
    let job := job.scraped_data.foldl (processBulkItem ai) job
    { job with status := "completed" }

theorem foldl_processBulkItem_all_success {ρ : Type}
    (ai : QAItem → Option (List (String × ρ))) :
    ∀ (l : List QAItem) (job : BulkJob ρ), (∀ x ∈ l, (ai x).isSome) →
      l.foldl (processBulkItem ai) job =
        { job with
          processed_questions := job.processed_questions + l.length,
          processed_data := (l.filterMap ai).foldl mergeRecord job.processed_data } := by
  intro l
  induction l with
  | nil => intro job h; simp
  | cons x rest ih =>
    intro job h
    obtain ⟨rec, hrec⟩ := Option.isSome_iff_exists.mp (h x (by simp))
    have hstep : processBulkItem ai job x =
        { job with
          processed_data := mergeRecord job.processed_data rec
          processed_questions := job.processed_questions + 1 } := by
      unfold processBulkItem
      rw [hrec]
    rw [List.foldl_cons, hstep, ih _ (fun y hy => h y (by simp [hy]))]
    simp only [List.filterMap_cons, hrec, List.foldl_cons, List.length_cons]
    have harith : job.processed_questions + 1 + rest.length
        = job.processed_questions + (rest.length + 1) := by omega
    rw [harith]

/-- C3: with connectivity up and exactly one failing item, the batch
still terminates in `completed`; the error list holds exactly the one
entry for the failed item; the success counter and accumulated output
cover all other items (their records merged in order). -/
theorem bulk_single_failure_completes {ρ : Type} (provider jid topic : String)
    (pre post : List QAItem) (bad : QAItem)
    (ai : QAItem → Option (List (String × ρ)))
    (hpre : ∀ x ∈ pre, (ai x).isSome) (hpost : ∀ x ∈ post, (ai x).isSome)
    (hbad : ai bad = none) :
    (runBulkProcessingJob true provider ai
        { mkScrapingJob jid topic with
          scraped_data := pre ++ bad :: post,
          total_questions := (pre ++ bad :: post).length }).status = "completed"
    ∧ (runBulkProcessingJob true provider ai
        { mkScrapingJob jid topic with
          scraped_data := pre ++ bad :: post,
          total_questions := (pre ++ bad :: post).length }).errors
        = ["Failed to process: " ++ (⟨bad.question.data.take 50⟩ : String) ++ "..."]
    ∧ (runBulkProcessingJob true provider ai
        { mkScrapingJob jid topic with
          scraped_data := pre ++ bad :: post,
          total_questions := (pre ++ bad :: post).length }).processed_questions
        = pre.length + post.length
    ∧ (runBulkProcessingJob true provider ai
        { mkScrapingJob jid topic with
          scraped_data := pre ++ bad :: post,
          total_questions := (pre ++ bad :: post).length }).processed_data
        = ((pre ++ post).filterMap ai).foldl mergeRecord [] := by
  have hbadstep : ∀ job : BulkJob ρ, processBulkItem ai job bad =
      { job with
        errors := job.errors ++ ["Failed to process: " ++ (⟨bad.question.data.take 50⟩ : String) ++ "..."] } := by
    intro job
    unfold processBulkItem
    rw [hbad]
  have hrun : runBulkProcessingJob true provider ai
      { mkScrapingJob jid topic with
        scraped_data := pre ++ bad :: post,
        total_questions := (pre ++ bad :: post).length } =
      { mkScrapingJob (ρ := ρ) jid topic with
        scraped_data := pre ++ bad :: post,
        total_questions := (pre ++ bad :: post).length,
        status := "completed",
        processed_questions := pre.length + post.length,
        processed_data := ((pre ++ post).filterMap ai).foldl mergeRecord [],
        errors := ["Failed to process: " ++ (⟨bad.question.data.take 50⟩ : String) ++ "..."] } := by
    unfold runBulkProcessingJob
    simp only [Bool.not_true, if_neg (by simp : ¬ (false = true))]
    rw [List.foldl_append, foldl_processBulkItem_all_success ai pre _ hpre, List.foldl_cons,
      hbadstep, foldl_processBulkItem_all_success ai post _ hpost]
    simp [List.filterMap_append, List.foldl_append, mkScrapingJob]
  rw [hrun]
  exact ⟨rfl, rfl, rfl, rfl⟩

/-- C3 (witness): a three-item batch whose middle item fails. -/
theorem bulk_single_failure_completes_witness :
    (runBulkProcessingJob true "openai"
        (fun item => if item.id = "q2" then none else some [(item.id, (1 : Nat))])
        { mkScrapingJob "j" "angular" with
          scraped_data := [⟨"q1", "a"⟩, ⟨"q2", "b"⟩, ⟨"q3", "c"⟩],
          total_questions := 3 }).status = "completed"
    ∧ (runBulkProcessingJob true "openai"
        (fun item => if item.id = "q2" then none else some [(item.id, (1 : Nat))])
        { mkScrapingJob "j" "angular" with
          scraped_data := [⟨"q1", "a"⟩, ⟨"q2", "b"⟩, ⟨"q3", "c"⟩],
          total_questions := 3 }).errors = ["Failed to process: b..."]
    ∧ (runBulkProcessingJob true "openai"
        (fun item => if item.id = "q2" then none else some [(item.id, (1 : Nat))])
        { mkScrapingJob "j" "angular" with
          scraped_data := [⟨"q1", "a"⟩, ⟨"q2", "b"⟩, ⟨"q3", "c"⟩],
          total_questions := 3 }).processed_questions = 2 := by
  have h := bulk_single_failure_completes "openai" "j" "angular"
    [⟨"q1", "a"⟩] [⟨"q3", "c"⟩] ⟨"q2", "b"⟩
    (fun item => if item.id = "q2" then none else some [(item.id, (1 : Nat))])
    (by decide) (by decide) (by decide)
  exact ⟨h.1, h.2.1.trans (by decide), h.2.2.1⟩

/-- C4: a failed connectivity check sends the batch straight to the
`error` terminal state with the single aggregated message, processes
zero items, leaves the output empty, and never consults the generation
function at all (the run is identical for any `ai`). -/
theorem bulk_conn_failure_fail_fast {ρ : Type} (provider jid topic : String)
    (items : List QAItem) (ai : QAItem → Option (List (String × ρ))) :
    (runBulkProcessingJob false provider ai
        { mkScrapingJob jid topic with
          scraped_data := items, total_questions := items.length }).status = "error"
    ∧ (runBulkProcessingJob false provider ai
        { mkScrapingJob jid topic with
          scraped_data := items, total_questions := items.length }).errors
        = ["AI connection failed for " ++ provider]
    ∧ (runBulkProcessingJob false provider ai
        { mkScrapingJob jid topic with
          scraped_data := items, total_questions := items.length }).processed_questions = 0
    ∧ (runBulkProcessingJob false provider ai
        { mkScrapingJob jid topic with
          scraped_data := items, total_questions := items.length }).processed_data = []
    ∧ (∀ ai2 : QAItem → Option (List (String × ρ)),
        runBulkProcessingJob false provider ai
          { mkScrapingJob jid topic with
            scraped_data := items, total_questions := items.length }
        = runBulkProcessingJob false provider ai2
          { mkScrapingJob jid topic with
            scraped_data := items, total_questions := items.length }) :=
  ⟨rfl, rfl, rfl, rfl, fun _ => rfl⟩

/-! ### Route guards (src/app.py: process_bulk_questions,
start_scraping) -/

/-- Outcome of a batch-start HTTP request. -/
inductive StartResult : Type
  | rejected (message : String) (code : Nat)
  | started (job_id : String) (count : Nat)
deriving DecidableEq

/-- The conflict guard shared by both routes:
`current_job and current_job.status in ['scraping', 'processing']`. -/
def jobActiveGuard {ρ : Type} (currentJob : Option (BulkJob ρ)) : Bool :=
  match currentJob with
  | some j => j.status == "scraping" || j.status == "processing"
  | none => false

/-- `process_bulk_questions`: the conflict guard, the client check, the
question parsing and the job creation; returns the HTTP-level outcome
and the new `current_job`. `now` stands for `int(time.time())`. The
background thread start is outside the state model. -/
def processBulkQuestions {ρ : Type} (currentJob : Option (BulkJob ρ)) (hasClient : Bool)
    (now : Nat) (questionsText topic : String) : StartResult × Option (BulkJob ρ) :=
  if jobActiveGuard currentJob then (.rejected "Job already running" 400, currentJob)
  else if !hasClient then
    (.rejected "No AI provider configured. Please set up OpenAI or Claude first." 400,
     currentJob)
  else
    let qtext := pyStrip questionsText.data
    if qtext.isEmpty then (.rejected "No questions provided" 400, currentJob)
    else
      let questions := ((splitNl qtext).map pyStrip).filter (fun l => !l.isEmpty)
      if questions.isEmpty then (.rejected "No valid questions found" 400, currentJob)
      else
        let job_id := "bulk_job_" ++ toString now
        let items := questions.enum.map (fun p =>
          ({ id := topic ++ "-bulk-q" ++ toString (p.1 + 1),
             question := (⟨p.2⟩ : String) } : QAItem))
        (.started job_id questions.length,
         some { mkScrapingJob job_id topic with
                scraped_data := items, total_questions := questions.length })

/-- Outcome of the `start_scraping` route at the guard. -/
inductive ScrapeStart : Type
  | rejected (message : String) (code : Nat)
  | proceeded
deriving DecidableEq

/-- `start_scraping`, modelled up to its conflict guard: everything
after a passed guard (mode selection, job creation, thread start) is
collapsed into `proceeded`, since the claim concerns only whether the
request is rejected. -/
def startScraping {ρ : Type} (currentJob : Option (BulkJob ρ)) : ScrapeStart :=
  if jobActiveGuard currentJob then .rejected "Job already running" 400
  else .proceeded

/-- A concrete batch sitting in the backend-checking phase. -/
def jobCheckingAi : BulkJob Nat :=
  { mkScrapingJob "bulk_job_0" "angular" with status := "checking_ai" }

/-- C9 (counterexample): the conflict guard checks only the statuses
`scraping` and `processing`; a batch in the backend-checking phase
(`checking_ai`) does not block either route — the bulk route starts a
brand-new batch, replacing the active one. -/
theorem batch_conflict_checking_phase_not_rejected :
    jobCheckingAi.status = "checking_ai"
    ∧ (processBulkQuestions (some jobCheckingAi) true 1 "What is X?" "angular").1
        = StartResult.started "bulk_job_1" 1
    ∧ startScraping (some jobCheckingAi) = ScrapeStart.proceeded := by
  refine ⟨rfl, rfl, rfl⟩

/-- C9 (amended): while an existing batch is in the `scraping` or
`processing` state, both routes reject the request as a conflict
(`Job already running`, HTTP 400) and `current_job` is unchanged;
batches in the `starting` or `checking_ai` phases do not block. -/
theorem batch_conflict_active_rejected {ρ : Type} (j : BulkJob ρ) (hasClient : Bool)
    (now : Nat) (questionsText topic : String)
    (h : j.status = "scraping" ∨ j.status = "processing") :
    processBulkQuestions (some j) hasClient now questionsText topic
      = (.rejected "Job already running" 400, some j)
    ∧ startScraping (some j) = .rejected "Job already running" 400 := by
  have hg : jobActiveGuard (some j) = true := by
    rcases h with h | h <;> simp [jobActiveGuard, h]
  constructor
  · unfold processBulkQuestions
    rw [if_pos hg]
  · unfold startScraping
    rw [if_pos hg]

/-- C9 (witness): a processing-state batch rejects a concrete bulk
request. -/
theorem batch_conflict_active_rejected_witness :
    processBulkQuestions (some { jobCheckingAi with status := "processing" })
        true 1 "What is X?" "angular"
      = (.rejected "Job already running" 400,
         some { jobCheckingAi with status := "processing" })
    ∧ startScraping (some { jobCheckingAi with status := "processing" })
      = .rejected "Job already running" 400 :=
  batch_conflict_active_rejected { jobCheckingAi with status := "processing" }
    true 1 "What is X?" "angular" (Or.inr rfl)

end QAGen
